/-
Verification of the sparky robot-control library against its specification.

Part 1 embeds the code present under `src/` (sparky/core/motion.py and
sparky/robot.py) as executable Lean functions over an explicit transport
oracle; each transport interaction is recorded in a trace so that claims
about "no transport send" are decidable.

Part 2 models the safety-gated action serialization subsystem (ActionQueue,
SafetyMonitor, RateLimiter, EmergencyChannel).  Its implementation module
(`sparky.core.action_queue`) is not among the available sources — only its
callers and tests are — so those definitions are modelled from the spec and
are marked as such in their doc comments.
-/
import Mathlib

namespace Sparky

/-! ## External constants (go2_webrtc_driver.constants)

`SPORT_CMD` is a string-keyed table mapping sport-command names to numeric
api ids.  It is provided by the external `go2_webrtc_driver` package; the
entries below are the ones whose ids the repository itself documents
(basic_movement_test.py's BASIC_MOVEMENTS table and
MotionController.get_firmware_compatibility_info). -/

def SPORT_CMD : List (String × Nat) :=
  [("Damp", 1001), ("BalanceStand", 1002), ("StopMove", 1003),
   ("StandUp", 1004), ("StandDown", 1005), ("RecoveryStand", 1006),
   ("Move", 1008), ("Sit", 1009), ("RiseSit", 1010),
   ("Hello", 1016), ("Stretch", 1017), ("Dance1", 1022), ("Dance2", 1023),
   ("FrontFlip", 1030), ("FrontJump", 1031), ("FrontPounce", 1032),
   ("LeftFlip", 1042), ("RightFlip", 1043), ("BackFlip", 1044),
   ("StandOut", 1301)]

/-- The two RTC topics the motion controller publishes on
(`RTC_TOPIC["SPORT_MOD"]` and `RTC_TOPIC["MOTION_SWITCHER"]`). -/
inductive Topic where
  | SPORT_MOD
  | MOTION_SWITCHER
deriving DecidableEq, Repr

/-- A parameter value inside a command's `parameter` dict.  The controller
never computes with these values; they are passed through verbatim. -/
inductive PVal where
  | num (q : ℚ)
  | boolean (b : Bool)
  | str (s : String)
deriving DecidableEq, Repr

/-- A `parameter` payload: a JSON-style dictionary. -/
def Params := List (String × PVal)
deriving DecidableEq, Repr

/-- One request handed to
`conn.datachannel.pub_sub.publish_request_new(topic, payload)`. -/
structure Request where
  topic : Topic
  api_id : Nat
  parameter : Option Params
deriving DecidableEq, Repr

/-- What the transport does with one request: either it returns a response
whose `data.header.status.code` is `code`, or the awaited call raises. -/
inductive TransportResult where
  | reply (code : Int)
  | raised
deriving DecidableEq, Repr

/-- The transport as an oracle: the behaviour of
`publish_request_new` on each request. -/
def Transport := Request → TransportResult

/-! ## MotionController (src/sparky/core/motion.py) -/

/-- Mutable state of a `MotionController` (its `conn` handle is the
transport oracle, supplied to each operation). -/
structure MotionController where
  current_mode : Option String
  is_moving : Bool
deriving DecidableEq, Repr

/-- A fresh controller, as built by `MotionController.__init__`. -/
def MotionController.init : MotionController :=
  { current_mode := none, is_moving := false }

/-- Result of one controller operation: the returned bool, the state after
the call, and the trace of transport requests the call issued. -/
structure OpResult where
  ret : Bool
  ctrl : MotionController
  sent : List Request
deriving DecidableEq, Repr

/-- The request `switch_motion_mode` publishes:
`{"api_id": 1002, "parameter": {"name": mode}}` on MOTION_SWITCHER. -/
def switchRequest (mode : String) : Request :=
  { topic := .MOTION_SWITCHER, api_id := 1002,
    parameter := some [("name", PVal.str mode)] }

/-- The request `move` publishes: `{"api_id": SPORT_CMD["Move"],
"parameter": {"x": x, "y": y, "z": z}}` on SPORT_MOD. -/
def moveRequest (x y z : ℚ) : Request :=
  { topic := .SPORT_MOD, api_id := 1008,
    parameter := some [("x", PVal.num x), ("y", PVal.num y), ("z", PVal.num z)] }

/-- The request `stop` publishes: `{"api_id": SPORT_CMD["StopMove"]}`. -/
def stopRequest : Request :=
  { topic := .SPORT_MOD, api_id := 1003, parameter := none }

/-- The request `execute_sport_command` publishes for a known command: the
`parameter` field is attached only when `parameters` is a truthy
(non-`None`, non-empty) dict, matching Python's `if parameters:`. -/
def sportRequest (apiId : Nat) (parameters : Option Params) : Request :=
  { topic := .SPORT_MOD, api_id := apiId,
    parameter :=
      match parameters with
      | some p => if p.isEmpty then none else some p
      | none => none }

/-- Embeds `MotionController.switch_motion_mode` (motion.py lines 58-100):
returns False immediately for the unsupported `"normal"`/`"ai"` modes;
otherwise publishes api_id 1002 on MOTION_SWITCHER and updates
`current_mode` exactly when the reply's status code is 0; any exception is
caught and turned into False. -/
def MotionController.switch_motion_mode (c : MotionController) (t : Transport)
    (mode : String) : OpResult :=
  if mode = "normal" ∨ mode = "ai" then
    { ret := false, ctrl := c, sent := [] }
  else
    let req := switchRequest mode
    match t req with
    | .reply code =>
        if code = 0 then
          { ret := true, ctrl := { c with current_mode := some mode }, sent := [req] }
        else
          { ret := false, ctrl := c, sent := [req] }
    | .raised => { ret := false, ctrl := c, sent := [req] }

/-- Embeds `MotionController.move` (motion.py lines 102-139): publishes
`SPORT_CMD["Move"]` with the velocity parameters; on status code 0 sets
`is_moving := True`, sleeps for `duration`, and returns True, otherwise
returns False; exceptions are caught and turned into False.  `duration`
only controls the sleep, which has no further observable effect here. -/
def MotionController.move (c : MotionController) (t : Transport)
    (x y z : ℚ) (duration : ℚ) : OpResult :=
  let _ := duration
  let req := moveRequest x y z
  match t req with
  | .reply code =>
      if code = 0 then
        { ret := true, ctrl := { c with is_moving := true }, sent := [req] }
      else
        { ret := false, ctrl := c, sent := [req] }
  | .raised => { ret := false, ctrl := c, sent := [req] }

/-- Embeds `MotionController.stop` (motion.py lines 152-171): publishes
`SPORT_CMD["StopMove"]`; on status code 0 sets `is_moving := False` and
returns True, otherwise False; exceptions are caught. -/
def MotionController.stop (c : MotionController) (t : Transport) : OpResult :=
  let req := stopRequest
  match t req with
  | .reply code =>
      if code = 0 then
        { ret := true, ctrl := { c with is_moving := false }, sent := [req] }
      else
        { ret := false, ctrl := c, sent := [req] }
  | .raised => { ret := false, ctrl := c, sent := [req] }

/-- The four distinct outcomes of `execute_sport_command`
(motion.py lines 198-258): the early return on the runtime membership test
`command_name not in SPORT_CMD`, the accepted (code 0) case, the non-zero
status-code case, and the caught-exception case.  The Python return value
is the image under `ExecOutcome.toBool`. -/
inductive ExecOutcome where
  | unknownCommand
  | accepted
  | failed (code : Int)
  | errored
deriving DecidableEq, Repr

/-- The bool `execute_sport_command` actually returns. -/
def ExecOutcome.toBool : ExecOutcome → Bool
  | .accepted => true
  | _ => false

/-- Result of `execute_sport_command`: outcome, state after, trace. -/
structure ExecResult where
  outcome : ExecOutcome
  ctrl : MotionController
  sent : List Request
deriving DecidableEq, Repr

/-- Embeds `MotionController.execute_sport_command` (motion.py lines 198-258):
looks `command_name` up in `SPORT_CMD` at dispatch time and returns False
without any transport send when absent; otherwise publishes the command's
api_id — the `parameter` field is attached only when `parameters` is a
truthy (non-`None`, non-empty) dict, matching Python's `if parameters:` —
and returns True exactly when the status code is 0; exceptions are
caught. -/
def MotionController.execute_sport_command (c : MotionController) (t : Transport)
    (command_name : String) (parameters : Option Params) : ExecResult :=
  match SPORT_CMD.lookup command_name with
  | none => { outcome := .unknownCommand, ctrl := c, sent := [] }
  | some apiId =>
      let req := sportRequest apiId parameters
      match t req with
      | .reply code =>
          if code = 0 then { outcome := .accepted, ctrl := c, sent := [req] }
          else { outcome := .failed code, ctrl := c, sent := [req] }
      | .raised => { outcome := .errored, ctrl := c, sent := [req] }

/-! ## Robot (src/sparky/robot.py)

Only the motion-facing operations the claims mention are embedded:
`Robot.move` and `Robot.command`.  A `Robot` before a successful `connect`
has `motion = none`; `connect` installs `some` controller. -/

/-- Embeds `direction.lower().replace("_", "-")` from Robot.move line 133. -/
def normalizeDirection (s : String) : String :=
  (s.map Char.toLower).replace "_" "-"

/-- Python's `str.title()` used by `Robot.command` line 173: uppercases the
first letter of every alphabetic run and lowercases the rest. -/
def pythonTitle (s : String) : String :=
  String.mk
    (s.toList.foldl
      (fun (acc : List Char × Bool) ch =>
        let isAlpha := ch.isAlpha
        let ch' := if isAlpha then (if acc.2 then ch.toLower else ch.toUpper) else ch
        (acc.1 ++ [ch'], isAlpha))
      ([], false)).1

/-- The motion-relevant part of a `Robot`'s state: the optional motion
controller created by `connect`. -/
structure Robot where
  motion : Option MotionController
deriving DecidableEq, Repr

/-- Result of a `Robot` operation: returned bool, robot state after, and
the transport requests issued on its behalf. -/
structure RobotResult where
  ret : Bool
  robot : Robot
  sent : List Request
deriving DecidableEq, Repr

/-- Embeds `Robot.move` (robot.py lines 111-155): returns False when no motion
controller exists (not connected); otherwise lowercases the direction,
maps it to the corresponding convenience wrapper (`move_forward` is
`move(x=speed)`, `move_backward` is `move(x=-speed)`, `move_left` is
`move(y=speed)`, `move_right` is `move(y=-speed)`, `turn_left` is
`move(z=speed)`, `turn_right` is `move(z=-speed)`, `"stop"` calls `stop`),
and returns False on an unknown direction; exceptions are caught. -/
def Robot.move (r : Robot) (t : Transport) (direction : String)
    (speed duration : ℚ) : RobotResult :=
  match r.motion with
  | none => { ret := false, robot := r, sent := [] }
  | some c =>
      let d := normalizeDirection direction
      let lift : OpResult → RobotResult := fun o =>
        { ret := o.ret, robot := { motion := some o.ctrl }, sent := o.sent }
      if d = "forward" then lift (c.move t speed 0 0 duration)
      else if d = "backward" then lift (c.move t (-speed) 0 0 duration)
      else if d = "left" then lift (c.move t 0 speed 0 duration)
      else if d = "right" then lift (c.move t 0 (-speed) 0 duration)
      else if d = "turn-left" ∨ d = "turnleft" then lift (c.move t 0 0 speed duration)
      else if d = "turn-right" ∨ d = "turnright" then lift (c.move t 0 0 (-speed) duration)
      else if d = "stop" then lift (c.stop t)
      else { ret := false, robot := r, sent := [] }

/-- Embeds `Robot.command` (robot.py lines 157-176): returns False when no motion
controller exists; otherwise title-cases the command and calls
`execute_sport_command`; exceptions are caught. -/
def Robot.command (r : Robot) (t : Transport) (command : String) : RobotResult :=
  match r.motion with
  | none => { ret := false, robot := r, sent := [] }
  | some c =>
      let e := c.execute_sport_command t (pythonTitle command) none
      { ret := e.outcome.toBool, robot := { motion := some e.ctrl }, sent := e.sent }

/-! ## Safety-gated action serialization subsystem

The implementation module `sparky.core.action_queue` (ActionPriority,
ActionType, QueueConfig, the worker, SafetyMonitor, RateLimiter and the
emergency path) is not among the available sources — only its importers
(examples/testing/ultra_safe_queue_test.py) and the spec describe it — so
the following definitions are modelled from the spec (§3-§4.5). -/

/-- Modelled from the spec: `SafetyState` = {Safe, Caution, EmergencyStop,
Recovering} (spec §3), owned by the SafetyMonitor. -/
inductive SafetyState where
  | Safe
  | Caution
  | EmergencyStop
  | Recovering
deriving DecidableEq, Repr

/-- Modelled from the spec: action priority tiers
{Emergency, High, Normal, Low} (spec §3). -/
inductive Priority where
  | Emergency
  | High
  | Normal
  | Low
deriving DecidableEq, Repr

/-- Rank used for queue ordering: lower rank dispatches first. -/
def Priority.rank : Priority → Nat
  | .Emergency => 0
  | .High => 1
  | .Normal => 2
  | .Low => 3

/-- Modelled from the spec: an Action's lifecycle state
{Pending, Running, Completed, Failed, Cancelled} (spec §3). -/
inductive AState where
  | Pending
  | Running
  | Completed
  | Failed
  | Cancelled
deriving DecidableEq, Repr

/-- Modelled from the spec: one requested unit of robot behaviour (spec §3):
id, kind (the command name of the tagged payload), a flag marking
Stop/recovery actions, priority, payload, lifecycle state, submission time,
attempt counters, and the last Executor error code seen. -/
structure Action where
  id : Nat
  kind : String
  isRecovery : Bool
  priority : Priority
  payload : Option Params
  state : AState
  submitted_at : Nat
  attempts : Nat
  max_attempts : Nat
  lastError : Option Int
deriving DecidableEq, Repr

/-- Outcome of `SafetyMonitor.validate`. -/
inductive VResult where
  | ok
  | rejected (reason : String)
deriving DecidableEq, Repr

/-- The permanently denylisted commands: a configurable set seeded with the
one hardware-damage command the source hardcodes by name (spec §9), the
"lie flat / disable joints" command `"Damp"`. -/
def defaultDenylist : List String := ["Damp"]

/-- Modelled from the spec: `SafetyMonitor.validate` (spec §4.2) rejects
unconditionally when `action.kind` matches a permanently denylisted
command, independent of state; rejects any non-recovery action while the
state is `EmergencyStop` (with the distinguished `EmergencyStopActive`
reason, spec §7); otherwise admits. -/
def validate (denylist : List String) (st : SafetyState) (a : Action) : VResult :=
  if a.kind ∈ denylist then .rejected "denylisted command"
  else if st = SafetyState.EmergencyStop ∧ a.isRecovery = false then
    .rejected "EmergencyStopActive"
  else .ok

/-- One recorded invocation of the external Executor's `send` primitive. -/
structure ExecCall where
  actionId : Nat
  kind : String
deriving DecidableEq, Repr

/-- Modelled from the spec: the observable state of the subsystem — the
SafetyMonitor's state, the pool of all submitted actions with their
lifecycle states, the trace of normal-path Executor `send` calls (made
only by the worker, spec §4.1), and the trace of emergency-path
`send_stop` calls. -/
structure SysState where
  safety : SafetyState
  actions : List Action
  execTrace : List ExecCall
  stopTrace : List String
deriving DecidableEq, Repr

/-- The subsystem's initial state: Safe, empty pool, empty traces. -/
def SysState.init : SysState :=
  { safety := .Safe, actions := [], execTrace := [], stopTrace := [] }

/-- Modelled from the spec: one interleaved step of the subsystem —
concurrent callers submit or cancel, the single worker dispatches,
completes or fails the running action, and the EmergencyChannel preempts
(spec §4.1, §4.2, §4.4, §5). -/
inductive Step (denylist : List String) : SysState → SysState → Prop where
  /-- Caller `submit`: admission runs `validate` synchronously; an admitted action
  enters the pool as Pending (spec §4.1). -/
  | submit {s : SysState} (a : Action)
      (hval : validate denylist s.safety a = .ok)
      (hpend : a.state = .Pending) :
      Step denylist s { s with actions := s.actions ++ [a] }
  /-- Caller `cancel`: succeeds only while the action is still Pending
  (spec §4.1). -/
  | cancel {s : SysState} (l₁ l₂ : List Action) (a : Action)
      (hsplit : s.actions = l₁ ++ a :: l₂)
      (hpend : a.state = .Pending) :
      Step denylist s
        { s with actions := l₁ ++ { a with state := .Cancelled } :: l₂ }
  /-- worker dispatch: the single worker, having finished any previous
  action (no action is Running), observes `SafetyState ≠ EmergencyStop`,
  pops a highest-priority Pending action, marks it Running and calls the
  Executor (spec §4.1 worker loop (a)-(c)). -/
  | dispatch {s : SysState} (l₁ l₂ : List Action) (a : Action)
      (hsplit : s.actions = l₁ ++ a :: l₂)
      (hpend : a.state = .Pending)
      (hnorun : ∀ b ∈ s.actions, b.state ≠ .Running)
      (hsafe : s.safety ≠ .EmergencyStop)
      (hbest : ∀ b ∈ s.actions, b.state = .Pending →
        a.priority.rank ≤ b.priority.rank) :
      Step denylist s
        { s with
          actions := l₁ ++ { a with state := .Running } :: l₂,
          execTrace := s.execTrace ++ [{ actionId := a.id, kind := a.kind }] }
  /-- worker completion: the Executor reported success; the Running action
  becomes Completed (spec §4.1 worker loop (d)). -/
  | complete {s : SysState} (l₁ l₂ : List Action) (a : Action)
      (hsplit : s.actions = l₁ ++ a :: l₂)
      (hrun : a.state = .Running) :
      Step denylist s
        { s with actions := l₁ ++ { a with state := .Completed } :: l₂ }
  /-- worker failure: the Executor reported failure with `code`; attempts
  is incremented and the action re-enters Pending when attempts remain,
  else it is marked Failed with the last error code attached (spec §4.1
  worker loop (d), §7). -/
  | fail {s : SysState} (l₁ l₂ : List Action) (a : Action) (code : Int)
      (hsplit : s.actions = l₁ ++ a :: l₂)
      (hrun : a.state = .Running) :
      Step denylist s
        { s with actions := l₁ ++
          { a with
            state := if a.attempts + 1 < a.max_attempts then .Pending else .Failed,
            attempts := a.attempts + 1,
            lastError := some code } :: l₂ }
  /-- emergency: the EmergencyChannel calls the Executor's stop primitive
  directly and then `trigger_emergency` forces `EmergencyStop` and cancels
  all currently-Pending non-Stop actions (spec §4.2, §4.4). -/
  | emergency {s : SysState} (reason : String) :
      Step denylist s
        { s with
          safety := .EmergencyStop,
          actions := s.actions.map (fun b =>
            if b.state = .Pending ∧ b.isRecovery = false then
              { b with state := .Cancelled } else b),
          stopTrace := s.stopTrace ++ [reason] }
  /-- Operator `begin_recovery`: explicit first half of the two-step transition back
  to Safe (spec §4.2). -/
  | beginRecovery {s : SysState}
      (h : s.safety = .EmergencyStop) :
      Step denylist s { s with safety := .Recovering }
  /-- Operator `confirm_safe`: explicit second half (spec §4.2). -/
  | confirmSafe {s : SysState}
      (h : s.safety = .Recovering) :
      Step denylist s { s with safety := .Safe }

/-- Reachability from the initial state under any interleaving of steps. -/
def Reachable (denylist : List String) (s : SysState) : Prop :=
  Relation.ReflTransGen (Step denylist) SysState.init s

/-- Number of actions currently observed in `Running` state. -/
def countRunning (s : SysState) : Nat :=
  s.actions.countP (fun a => a.state = AState.Running)

/-! ### RateLimiter (spec §4.3) -/

/-- Modelled from the spec: the RateLimiter is stateless beyond the
`last_dispatch` timestamp and its configured `min_dispatch_interval`.
Time is measured in discrete ticks. -/
structure RateLimiter where
  min_dispatch_interval : Nat
  last_dispatch : Nat
deriving DecidableEq, Repr

/-- Modelled from the spec: `acquire()` waits until
`now - last_dispatch >= min_dispatch_interval`, then returns; the returned
value is the earliest instant at which the dispatch may proceed. -/
def RateLimiter.acquire (rl : RateLimiter) (now : Nat) : Nat :=
  max now (rl.last_dispatch + rl.min_dispatch_interval)

/-- The instants at which a sequence of normal dispatches actually reach
the Executor: each dispatch is requested at the corresponding instant in
`nows`, first passes through `RateLimiter.acquire`, and the dispatch
updates `last_dispatch` to the instant it went out. -/
def dispatchTimes (interval : Nat) : Nat → List Nat → List Nat
  | _, [] => []
  | last, now :: rest =>
      let t := RateLimiter.acquire ⟨interval, last⟩ now
      t :: dispatchTimes interval t rest

/-! ### EmergencyChannel (spec §4.4) -/

/-- Modelled from the spec: the full subsystem state the EmergencyChannel
can touch — the action pool and safety state, the rate limiter, and the
two Executor traces.  The normal path is the worker of `Step`; this
record is used for the functional emergency path. -/
structure Subsystem where
  safety : SafetyState
  queue : List Action
  limiter : RateLimiter
  stopCalls : List String
  normalCalls : List ExecCall
deriving DecidableEq, Repr

/-- Modelled from the spec: `EmergencyChannel.emergency_stop(reason)`
(spec §4.4) calls the Executor's stop primitive directly — never
`RateLimiter.acquire`, never the queue — then calls
`SafetyMonitor.trigger_emergency`, which forces `EmergencyStop` and
cancels all currently-Pending non-Stop actions; the bool returned is the
Executor's own result for the stop call. -/
def emergency_stop (s : Subsystem) (execStopOk : Bool) (reason : String) :
    Bool × Subsystem :=
  let afterStop := { s with stopCalls := s.stopCalls ++ [reason] }
  let afterTrigger :=
    { afterStop with
      safety := .EmergencyStop,
      queue := afterStop.queue.map (fun b =>
        if b.state = .Pending ∧ b.isRecovery = false then
          { b with state := .Cancelled } else b) }
  (execStopOk, afterTrigger)

/-! ### Worker retry handling (spec §4.1 (d), §7) -/

/-- Modelled from the spec: re-enqueueing a retried action at the front of
its priority tier — it is placed after every strictly higher-priority
pending action and before everything else. -/
def insertFrontOfTier (a : Action) : List Action → List Action
  | [] => [a]
  | b :: rest =>
      if b.priority.rank < a.priority.rank then b :: insertFrontOfTier a rest
      else a :: b :: rest

/-- What the Executor reported for one dispatch of an action. -/
inductive ExecReport where
  | success
  | failure (code : Int)
deriving DecidableEq, Repr

/-- Modelled from the spec: the worker's bookkeeping after the Executor
reports on a dispatched (Running) action — success marks Completed; a
failure increments `attempts` and returns the action to Pending while
`attempts < max_attempts`, else marks it Failed with the last error code
attached (spec §4.1 (d), §7). -/
def workerReport (a : Action) : ExecReport → Action
  | .success => { a with state := .Completed }
  | .failure code =>
      { a with
        state := if a.attempts + 1 < a.max_attempts then .Pending else .Failed,
        attempts := a.attempts + 1,
        lastError := some code }

/-- Modelled from the spec: the worker repeatedly re-dispatching one action
while it keeps returning to Pending; `reports k` is the Executor's report
for the k-th dispatch (counting from `k0`).  Returns the retired action
and the number of dispatches performed.  `fuel` bounds the recursion;
every failure strictly increases `attempts`, so
`max_attempts - attempts` fuel suffices. -/
def runRetries (reports : Nat → ExecReport) : Nat → Nat → Action → Action × Nat
  | _, 0, a => (a, 0)
  | k0, fuel + 1, a =>
      if a.state = AState.Pending then
        let a' := workerReport { a with state := .Running } (reports k0)
        if a'.state = AState.Pending then
          let (b, n) := runRetries reports (k0 + 1) fuel a'
          (b, n + 1)
        else (a', 1)
      else (a, 0)

/-! ### Concrete transports and actions used in witnesses -/

/-- A transport whose every reply has status code 0. -/
def alwaysOk : Transport := fun _ => .reply 0

/-- A transport on which every awaited call raises. -/
def alwaysRaise : Transport := fun _ => .raised

/-- A transport whose every reply carries the firmware error code 3203. -/
def alwaysBusy : Transport := fun _ => .reply 3203

/-- A concrete Pending "Damp" action. -/
def dampAction : Action :=
  { id := 0, kind := "Damp", isRecovery := false, priority := .High,
    payload := none, state := .Pending, submitted_at := 0, attempts := 0,
    max_attempts := 3, lastError := none }

/-- A concrete Pending "Hello" action with three allowed attempts. -/
def helloAction : Action :=
  { id := 1, kind := "Hello", isRecovery := false, priority := .Normal,
    payload := none, state := .Pending, submitted_at := 0, attempts := 0,
    max_attempts := 3, lastError := none }

/-! ## Theorems -/

/-- C9: For every direction string, speed, duration, and command string,
`Robot.move` and `Robot.command` called before a successful connect (while
the motion controller is `None`) return False, without raising and without
any transport interaction (empty request trace). -/
theorem robot_ops_before_connect_no_transport (t : Transport)
    (direction : String) (speed duration : ℚ) (command : String) :
    Robot.move { motion := none } t direction speed duration =
      { ret := false, robot := { motion := none }, sent := [] }
    ∧ Robot.command { motion := none } t command =
      { ret := false, robot := { motion := none }, sent := [] } :=
  ⟨rfl, rfl⟩

/-- C10: `MotionController.move` sets `is_moving := true`, and
`MotionController.stop` sets `is_moving := false`, exactly when the
transport reply for the issued request carries status code 0; on a
non-zero code or a raised transport call the controller state is left
unchanged, and neither operation modifies any other field (the record
update touches only `is_moving`). -/
theorem move_stop_is_moving_frame (c : MotionController) (t : Transport)
    (x y z duration : ℚ) :
    ((c.move t x y z duration).ctrl =
      if t (moveRequest x y z) = .reply 0 then { c with is_moving := true } else c)
    ∧ ((c.stop t).ctrl =
      if t stopRequest = .reply 0 then { c with is_moving := false } else c) := by
  constructor
  · show (match t (moveRequest x y z) with
      | .reply code =>
          if code = 0 then
            { ret := true, ctrl := { c with is_moving := true },
              sent := [moveRequest x y z] }
          else { ret := false, ctrl := c, sent := [moveRequest x y z] }
      | .raised =>
          { ret := false, ctrl := c, sent := [moveRequest x y z] } : OpResult).ctrl = _
    cases h : t (moveRequest x y z) with
    | reply code =>
        by_cases hc : code = 0 <;> simp [hc]
    | raised => simp
  · show (match t stopRequest with
      | .reply code =>
          if code = 0 then
            { ret := true, ctrl := { c with is_moving := false },
              sent := [stopRequest] }
          else { ret := false, ctrl := c, sent := [stopRequest] }
      | .raised => { ret := false, ctrl := c, sent := [stopRequest] } : OpResult).ctrl = _
    cases h : t stopRequest with
    | reply code =>
        by_cases hc : code = 0 <;> simp [hc]
    | raised => simp

/-- C8: For `mode ∈ {"normal", "ai"}`, `switch_motion_mode` returns False
with no transport request; for any other mode exactly one transport
request (the MOTION_SWITCHER api_id-1002 request) is made, `current_mode`
is updated to the requested mode iff the reply's status code is 0, and the
call returns True iff the status code is 0. -/
theorem switch_motion_mode_mode_gate (c : MotionController) (t : Transport)
    (mode : String) :
    ((mode = "normal" ∨ mode = "ai") →
      c.switch_motion_mode t mode = { ret := false, ctrl := c, sent := [] })
    ∧ (¬(mode = "normal" ∨ mode = "ai") →
      (c.switch_motion_mode t mode).sent = [switchRequest mode]
      ∧ ((c.switch_motion_mode t mode).ctrl.current_mode =
          if t (switchRequest mode) = .reply 0 then some mode else c.current_mode)
      ∧ ((c.switch_motion_mode t mode).ret = true ↔
          t (switchRequest mode) = .reply 0)) := by
  constructor
  · intro h
    simp [MotionController.switch_motion_mode, h]
  · intro h
    rw [MotionController.switch_motion_mode, if_neg h]
    cases ht : t (switchRequest mode) with
    | reply code => by_cases hc : code = 0 <;> simp [hc, ht]
    | raised => simp [ht]

/-- C8 witness: at `"normal"` no request is sent and False is returned; at
`"mcf"` with an always-code-0 transport the request is sent and the mode
is recorded. -/
theorem switch_motion_mode_mode_gate_witness :
    MotionController.init.switch_motion_mode alwaysOk "normal" =
      { ret := false, ctrl := MotionController.init, sent := [] }
    ∧ (MotionController.init.switch_motion_mode alwaysOk "mcf").sent =
      [switchRequest "mcf"] :=
  ⟨(switch_motion_mode_mode_gate MotionController.init alwaysOk "normal").1
      (Or.inl rfl),
   ((switch_motion_mode_mode_gate MotionController.init alwaysOk "mcf").2
      (by simp)).1⟩

/-- Helper for C4: on any transport result other than a code-0 reply,
`execute_sport_command` does not report `accepted`, so its Python return
value is False. -/
theorem exec_sport_command_fail_toBool (c : MotionController) (t : Transport)
    (name : String) (p : Option Params)
    (hfail : ∀ req, t req ≠ .reply 0) :
    (c.execute_sport_command t name p).outcome.toBool = false := by
  rw [MotionController.execute_sport_command]
  cases SPORT_CMD.lookup name with
  | none => rfl
  | some apiId =>
      cases ht : t (sportRequest apiId p) with
      | reply code =>
          have : code ≠ 0 := by
            intro h0
            exact hfail _ (h0 ▸ ht)
          simp [ht, this, ExecOutcome.toBool]
      | raised => simp [ht, ExecOutcome.toBool]

/-- C4: every per-action failure — a transport reply with a non-zero
status code or an exception raised by the transport — makes `move`,
`stop`, `execute_sport_command` and `Robot.command` return False to the
caller; the operations are total Lean functions, so no failure propagates
or terminates anything. -/
theorem per_action_failure_returns_false (c : MotionController) (t : Transport)
    (x y z duration : ℚ) (name : String) (p : Option Params) (r : Robot)
    (cmd : String) (hfail : ∀ req, t req ≠ .reply 0) :
    (c.move t x y z duration).ret = false
    ∧ (c.stop t).ret = false
    ∧ (c.execute_sport_command t name p).outcome.toBool = false
    ∧ (r.command t cmd).ret = false := by
  refine ⟨?_, ?_, exec_sport_command_fail_toBool c t name p hfail, ?_⟩
  · rw [MotionController.move]
    cases ht : t (moveRequest x y z) with
    | reply code =>
        have : code ≠ 0 := by
          intro h0
          exact hfail _ (h0 ▸ ht)
        simp [ht, this]
    | raised => simp [ht]
  · rw [MotionController.stop]
    cases ht : t stopRequest with
    | reply code =>
        have : code ≠ 0 := by
          intro h0
          exact hfail _ (h0 ▸ ht)
        simp [ht, this]
    | raised => simp [ht]
  · rw [Robot.command]
    cases r.motion with
    | none => rfl
    | some c' =>
        simp only
        rw [exec_sport_command_fail_toBool c' t (pythonTitle cmd) none hfail]

/-- C4 witness: with a transport on which every call raises, each
operation returns False. -/
theorem per_action_failure_returns_false_witness :
    (MotionController.init.move alwaysRaise 1 0 0 2).ret = false
    ∧ (MotionController.init.stop alwaysRaise).ret = false
    ∧ (MotionController.init.execute_sport_command alwaysRaise "Hello"
        none).outcome.toBool = false
    ∧ (Robot.command { motion := some MotionController.init } alwaysRaise
        "hello").ret = false :=
  per_action_failure_returns_false MotionController.init alwaysRaise 1 0 0 2
    "Hello" none { motion := some MotionController.init } "hello"
    (fun _ h => by simp [alwaysRaise] at h)

/-- C7 counterexample: the claim says an unknown command kind is rejected
when the action is created and never reaches the dispatch path to fail
there via a runtime string lookup.  In the source there is no
construction-time check at all: the unknown name `"Backflip"` (the real
key is `"BackFlip"`) reaches `execute_sport_command`, whose runtime
membership lookup in `SPORT_CMD` (motion.py line 212) is what rejects it —
the `unknownCommand` outcome is precisely that dispatch-time
string-lookup failure. -/
theorem unknown_command_fails_in_dispatch_counterexample :
    SPORT_CMD.lookup "Backflip" = none
    ∧ (MotionController.init.execute_sport_command alwaysOk "Backflip"
        none).outcome = ExecOutcome.unknownCommand := by
  exact ⟨by decide, by decide⟩

/-- C7 (amended): an unknown command name is not a construction-time
error; it is rejected at dispatch time, inside `execute_sport_command`,
by the runtime membership lookup in `SPORT_CMD`, which returns False to
the caller without any transport send. -/
theorem unknown_command_rejected_at_dispatch (c : MotionController)
    (t : Transport) (name : String) (p : Option Params)
    (h : SPORT_CMD.lookup name = none) :
    c.execute_sport_command t name p =
      { outcome := .unknownCommand, ctrl := c, sent := [] }
    ∧ (c.execute_sport_command t name p).outcome.toBool = false := by
  have heq : c.execute_sport_command t name p =
      { outcome := .unknownCommand, ctrl := c, sent := [] } := by
    rw [MotionController.execute_sport_command, h]
  exact ⟨heq, by rw [heq]; rfl⟩

/-- C7 witness: the amended behaviour at the unknown name `"Backflip"`. -/
theorem unknown_command_rejected_at_dispatch_witness :
    MotionController.init.execute_sport_command alwaysOk "Backflip" none =
      { outcome := .unknownCommand, ctrl := MotionController.init, sent := [] } :=
  (unknown_command_rejected_at_dispatch MotionController.init alwaysOk
    "Backflip" none (by decide)).1

/-- C1 counterexample: the claim says
`execute_sport_command("Damp", params)` performs no transport send; in the
source `"Damp"` is a key of `SPORT_CMD` (api id 1001), so the call
publishes the request — the trace contains exactly the api-id-1001 send. -/
theorem damp_direct_call_sends_counterexample :
    (MotionController.init.execute_sport_command alwaysOk "Damp"
        (some [("duration", PVal.num 1)])).sent =
      [{ topic := .SPORT_MOD, api_id := 1001,
         parameter := some [("duration", PVal.num 1)] }] := by
  decide

/-- Membership in a list with one element replaced: the member is either
in the original list or is the replacement. -/
theorem mem_replace_split {l₁ l₂ : List Action} {b : Action} (a a' : Action)
    (hb : b ∈ l₁ ++ a' :: l₂) : b ∈ l₁ ++ a :: l₂ ∨ b = a' := by
  simp only [List.mem_append, List.mem_cons] at hb ⊢
  tauto

/-- One step preserves: no pool action and no normal-path Executor call
carries a denylisted command kind. -/
theorem step_preserves_denylist_free {denylist : List String}
    {s s' : SysState} (hstep : Step denylist s s')
    (hA : ∀ a ∈ s.actions, a.kind ∉ denylist)
    (hT : ∀ call ∈ s.execTrace, call.kind ∉ denylist) :
    (∀ a ∈ s'.actions, a.kind ∉ denylist)
    ∧ (∀ call ∈ s'.execTrace, call.kind ∉ denylist) := by
  cases hstep with
  | submit a hval hpend =>
      refine ⟨?_, hT⟩
      intro b hb
      rcases List.mem_append.1 hb with hb | hb
      · exact hA b hb
      · have hba : b = a := by simpa using hb
        subst hba
        intro hk
        rw [validate, if_pos hk] at hval
        exact VResult.noConfusion hval
  | cancel l₁ l₂ a hsplit hpend =>
      refine ⟨?_, hT⟩
      intro b hb
      rcases mem_replace_split a _ hb with hb | rfl
      · exact hA b (by rw [hsplit]; exact hb)
      · exact hA a (by rw [hsplit]; simp)
  | dispatch l₁ l₂ a hsplit hpend hnorun hsafe hbest =>
      have haMem : a ∈ s.actions := by rw [hsplit]; simp
      refine ⟨?_, ?_⟩
      · intro b hb
        rcases mem_replace_split a _ hb with hb | rfl
        · exact hA b (by rw [hsplit]; exact hb)
        · exact hA a haMem
      · intro call hcall
        rcases List.mem_append.1 hcall with hc | hc
        · exact hT call hc
        · have : call = { actionId := a.id, kind := a.kind } := by simpa using hc
          subst this
          exact hA a haMem
  | complete l₁ l₂ a hsplit hrun =>
      refine ⟨?_, hT⟩
      intro b hb
      rcases mem_replace_split a _ hb with hb | rfl
      · exact hA b (by rw [hsplit]; exact hb)
      · exact hA a (by rw [hsplit]; simp)
  | fail l₁ l₂ a code hsplit hrun =>
      refine ⟨?_, hT⟩
      intro b hb
      rcases mem_replace_split a _ hb with hb | rfl
      · exact hA b (by rw [hsplit]; exact hb)
      · exact hA a (by rw [hsplit]; simp)
  | emergency reason =>
      refine ⟨?_, hT⟩
      intro b hb
      rcases List.mem_map.1 hb with ⟨a, ha, rfl⟩
      by_cases hc : a.state = AState.Pending ∧ a.isRecovery = false
      · simpa [hc] using hA a ha
      · simpa [hc] using hA a ha
  | beginRecovery h => exact ⟨hA, hT⟩
  | confirmSafe h => exact ⟨hA, hT⟩

/-- In every reachable state of the subsystem, no submitted action and no
normal-path Executor call carries a denylisted kind. -/
theorem reachable_denylist_free {denylist : List String} {s : SysState}
    (h : Reachable denylist s) :
    (∀ a ∈ s.actions, a.kind ∉ denylist)
    ∧ (∀ call ∈ s.execTrace, call.kind ∉ denylist) := by
  induction h with
  | refl => exact ⟨by simp [SysState.init], by simp [SysState.init]⟩
  | tail hsteps hstep ih =>
      exact step_preserves_denylist_free hstep ih.1 ih.2

/-- One step never raises the number of Running actions above one: the
dispatch step requires the single worker to be idle (no Running action),
and every other step moves actions away from Running or leaves them be. -/
theorem step_preserves_running_le_one {denylist : List String}
    {s s' : SysState} (hstep : Step denylist s s')
    (h : countRunning s ≤ 1) : countRunning s' ≤ 1 := by
  cases hstep with
  | submit a hval hpend =>
      unfold countRunning at h ⊢
      simp only [List.countP_append, List.countP_cons, List.countP_nil]
      simp [hpend]
      omega
  | cancel l₁ l₂ a hsplit hpend =>
      unfold countRunning at h ⊢
      rw [hsplit] at h
      simp only [List.countP_append, List.countP_cons] at h ⊢
      simp only [hpend] at h
      simp at h ⊢
      omega
  | dispatch l₁ l₂ a hsplit hpend hnorun hsafe hbest =>
      unfold countRunning
      have h1 : l₁.countP (fun a => decide (a.state = AState.Running)) = 0 := by
        rw [List.countP_eq_zero]
        intro b hb
        simpa using hnorun b (by rw [hsplit]; simp [hb])
      have h2 : l₂.countP (fun a => decide (a.state = AState.Running)) = 0 := by
        rw [List.countP_eq_zero]
        intro b hb
        simpa using hnorun b (by rw [hsplit]; simp [hb])
      simp only [List.countP_append, List.countP_cons, h1, h2]
      simp
  | complete l₁ l₂ a hsplit hrun =>
      unfold countRunning at h ⊢
      rw [hsplit] at h
      simp only [List.countP_append, List.countP_cons] at h ⊢
      simp [hrun] at h
      simp
      omega
  | fail l₁ l₂ a code hsplit hrun =>
      unfold countRunning at h ⊢
      rw [hsplit] at h
      simp only [List.countP_append, List.countP_cons] at h ⊢
      simp [hrun] at h
      have hne : ((if a.attempts + 1 < a.max_attempts then AState.Pending
          else AState.Failed) = AState.Running) = False := by
        by_cases hlt : a.attempts + 1 < a.max_attempts <;> simp [hlt]
      simp [hne]
      omega
  | emergency reason =>
      unfold countRunning at h ⊢
      have key : ∀ l : List Action,
          (l.map (fun b =>
            if b.state = AState.Pending ∧ b.isRecovery = false then
              { b with state := AState.Cancelled } else b)).countP
            (fun a => decide (a.state = AState.Running)) =
          l.countP (fun a => decide (a.state = AState.Running)) := by
        intro l
        induction l with
        | nil => rfl
        | cons b rest ih =>
            by_cases hc : b.state = AState.Pending ∧ b.isRecovery = false
            · simp only [List.map_cons, List.countP_cons, ih]
              simp [hc.1, hc.2]
            · simp only [List.map_cons, List.countP_cons, ih, if_neg hc]
      simpa only [key] using h
  | beginRecovery hsafe => exact h
  | confirmSafe hsafe => exact h

/-- C2: in every reachable state of the (spec-modelled) subsystem, at most
one action is observed in Running state; moreover the only step that
extends the normal-path Executor trace is the single worker's dispatch
step, which can fire only while no action is Running (so no code path
other than the worker loop invokes the Executor for non-emergency
actions). -/
theorem running_mutual_exclusion (denylist : List String) (s : SysState)
    (h : Reachable denylist s) :
    countRunning s ≤ 1
    ∧ (∀ u u' : SysState, Step denylist u u' → u'.execTrace ≠ u.execTrace →
        (∀ b ∈ u.actions, b.state ≠ AState.Running)
        ∧ ∃ call, u'.execTrace = u.execTrace ++ [call]) := by
  constructor
  · induction h with
    | refl => simp [countRunning, SysState.init]
    | tail hsteps hstep ih => exact step_preserves_running_le_one hstep ih
  · intro u u' hstep hne
    cases hstep with
    | submit a hval hpend => exact absurd rfl hne
    | cancel l₁ l₂ a hsplit hpend => exact absurd rfl hne
    | dispatch l₁ l₂ a hsplit hpend hnorun hsafe hbest =>
        exact ⟨hnorun, _, rfl⟩
    | complete l₁ l₂ a hsplit hrun => exact absurd rfl hne
    | fail l₁ l₂ a code hsplit hrun => exact absurd rfl hne
    | emergency reason => exact absurd rfl hne
    | beginRecovery hsafe => exact absurd rfl hne
    | confirmSafe hsafe => exact absurd rfl hne

/-- C2 witness: a concrete reachable state — submit "Hello", then let the
worker dispatch it — has at most one Running action. -/
theorem running_mutual_exclusion_witness :
    countRunning
      { safety := SafetyState.Safe,
        actions := [{ helloAction with state := AState.Running }],
        execTrace := [{ actionId := 1, kind := "Hello" }],
        stopTrace := [] } ≤ 1 := by
  have h1 : Step defaultDenylist SysState.init
      { safety := SafetyState.Safe, actions := [helloAction],
        execTrace := [], stopTrace := [] } :=
    Step.submit helloAction (by decide) (by decide)
  have h2 : Step defaultDenylist
      { safety := SafetyState.Safe, actions := [helloAction],
        execTrace := [], stopTrace := [] }
      { safety := SafetyState.Safe,
        actions := [{ helloAction with state := AState.Running }],
        execTrace := [{ actionId := 1, kind := "Hello" }], stopTrace := [] } :=
    Step.dispatch [] [] helloAction rfl (by decide) (by decide) (by decide)
      (by decide)
  exact (running_mutual_exclusion defaultDenylist _
    (Relation.ReflTransGen.tail
      (Relation.ReflTransGen.tail Relation.ReflTransGen.refl h1) h2)).1

/-- C1 (amended): the denylisted "Damp" command is rejected by the
(spec-modelled) SafetyMonitor validation in every SafetyState, and in
every reachable subsystem state no normal-path Executor call carries the
"Damp" kind; however, the un-gated `MotionController.execute_sport_command`
sits below that safety layer, and a direct call with `"Damp"` does perform
the transport send with api id 1001. -/
theorem damp_denylist_invariance (st : SafetyState) (a : Action)
    (hk : a.kind = "Damp") (s : SysState)
    (hreach : Reachable defaultDenylist s)
    (c : MotionController) (t : Transport) (p : Option Params) :
    validate defaultDenylist st a = .rejected "denylisted command"
    ∧ (∀ call ∈ s.execTrace, call.kind ≠ "Damp")
    ∧ (c.execute_sport_command t "Damp" p).sent = [sportRequest 1001 p] := by
  refine ⟨?_, ?_, ?_⟩
  · rw [validate, if_pos (by simp [defaultDenylist, hk])]
  · intro call hc
    have hmem := (reachable_denylist_free hreach).2 call hc
    simpa [defaultDenylist] using hmem
  · have hl : SPORT_CMD.lookup "Damp" = some 1001 := by decide
    simp only [MotionController.execute_sport_command, hl]
    cases ht : t (sportRequest 1001 p) with
    | reply code => by_cases hc : code = 0 <;> simp [ht, hc]
    | raised => simp [ht]

/-- C1 witness: the rejection at `Safe` on the concrete Damp action, and
the concrete direct send it forces the amendment to record. -/
theorem damp_denylist_invariance_witness :
    validate defaultDenylist SafetyState.Safe dampAction =
      VResult.rejected "denylisted command"
    ∧ (MotionController.init.execute_sport_command alwaysOk "Damp" none).sent =
      [sportRequest 1001 none] :=
  ⟨(damp_denylist_invariance SafetyState.Safe dampAction rfl SysState.init
      Relation.ReflTransGen.refl MotionController.init alwaysOk none).1,
   (damp_denylist_invariance SafetyState.Safe dampAction rfl SysState.init
      Relation.ReflTransGen.refl MotionController.init alwaysOk none).2.2⟩

/-- C3: `emergency_stop(reason)` is exposed with a bool result and every
call invokes the Executor's stop primitive directly: exactly one stop call
is appended, no normal-path (queued) Executor call is made, the rate
limiter is neither consulted nor updated, and both the returned bool and
the stop call are unchanged under arbitrary replacement of the queue
contents and the rate-limiter state — the path is independent of both. -/
theorem emergency_stop_direct_path (s : Subsystem) (execStopOk : Bool)
    (reason : String) (q' : List Action) (rl' : RateLimiter) :
    (emergency_stop s execStopOk reason).1 = execStopOk
    ∧ (emergency_stop s execStopOk reason).2.stopCalls = s.stopCalls ++ [reason]
    ∧ (emergency_stop s execStopOk reason).2.normalCalls = s.normalCalls
    ∧ (emergency_stop s execStopOk reason).2.limiter = s.limiter
    ∧ (emergency_stop { s with queue := q', limiter := rl' } execStopOk
        reason).1 = (emergency_stop s execStopOk reason).1
    ∧ (emergency_stop { s with queue := q', limiter := rl' } execStopOk
        reason).2.stopCalls = s.stopCalls ++ [reason] :=
  ⟨rfl, rfl, rfl, rfl, rfl, rfl⟩

/-- `insertFrontOfTier` places the retried action exactly after the
longest prefix of strictly higher-priority entries: the front of its
priority tier. -/
theorem insertFrontOfTier_front (a : Action) :
    ∀ q : List Action, insertFrontOfTier a q =
      q.takeWhile (fun b => b.priority.rank < a.priority.rank) ++
        a :: q.dropWhile (fun b => b.priority.rank < a.priority.rank) := by
  intro q
  induction q with
  | nil => rfl
  | cons b rest ih =>
      by_cases hb : b.priority.rank < a.priority.rank
      · simp [insertFrontOfTier, hb, List.takeWhile_cons, List.dropWhile_cons, ih]
      · simp [insertFrontOfTier, hb, List.takeWhile_cons, List.dropWhile_cons]

/-- Against an Executor that fails every dispatch, the worker's retry loop
performs exactly `fuel` further dispatches when `fuel` attempts remain,
and retires the action as Failed carrying the last error code. -/
theorem runRetries_exhausts (reports : Nat → ExecReport) (e : Nat → Int)
    (hfail : ∀ k, reports k = .failure (e k)) :
    ∀ (fuel k0 : Nat) (a : Action), a.state = .Pending →
      a.attempts + fuel = a.max_attempts → 0 < fuel →
      runRetries reports k0 fuel a =
        ({ a with
            state := .Failed,
            attempts := a.max_attempts,
            lastError := some (e (k0 + fuel - 1)) }, fuel) := by
  intro fuel
  induction fuel with
  | zero => intro k0 a _ _ hpos; omega
  | succ n ih =>
      intro k0 a hpend hsum _
      rw [runRetries, if_pos hpend, hfail k0]
      cases Nat.eq_zero_or_pos n with
      | inl hn0 =>
          subst hn0
          have hlt : ¬(a.attempts + 1 < a.max_attempts) := by omega
          have hmax : a.attempts + 1 = a.max_attempts := by omega
          simp only [workerReport, if_neg hlt]
          simp [hmax]
      | inr hnpos =>
          have hlt : a.attempts + 1 < a.max_attempts := by omega
          simp only [workerReport, if_pos hlt]
          rw [ih (k0 + 1) _ rfl (by simpa using by omega) hnpos]
          have hidx : k0 + 1 + n - 1 = k0 + (n + 1) - 1 := by omega
          simp [hidx]

/-- C5: when the Executor fails a dispatched action every time, the worker
retries it up to `max_attempts` (exactly `max_attempts` dispatches in
total) and only then surfaces it as Failed with the last error code
attached; between attempts the action is re-enqueued at the front of its
priority tier (after every strictly higher-priority pending entry, before
all the rest). -/
theorem executor_failure_retry_policy (reports : Nat → ExecReport)
    (e : Nat → Int) (a : Action) (q : List Action)
    (hfail : ∀ k, reports k = .failure (e k))
    (hpend : a.state = .Pending) (h0 : a.attempts = 0)
    (hpos : 0 < a.max_attempts) :
    runRetries reports 0 a.max_attempts a =
      ({ a with
          state := .Failed,
          attempts := a.max_attempts,
          lastError := some (e (a.max_attempts - 1)) }, a.max_attempts)
    ∧ insertFrontOfTier a q =
        q.takeWhile (fun b => b.priority.rank < a.priority.rank) ++
          a :: q.dropWhile (fun b => b.priority.rank < a.priority.rank) := by
  constructor
  · have := runRetries_exhausts reports e hfail a.max_attempts 0 a hpend
      (by omega) hpos
    simpa using this
  · exact insertFrontOfTier_front a q

/-- C5 witness: the concrete Hello action with `max_attempts = 3` against
an Executor that always fails with code 3203 is dispatched exactly three
times and retired Failed with last error 3203. -/
theorem executor_failure_retry_policy_witness :
    runRetries (fun _ => ExecReport.failure 3203) 0 3 helloAction =
      ({ helloAction with
          state := .Failed,
          attempts := 3,
          lastError := some 3203 }, 3) := by
  have h := (executor_failure_retry_policy (fun _ => ExecReport.failure 3203)
    (fun _ => 3203) helloAction [] (fun _ => rfl) rfl rfl (by decide)).1
  simpa [helloAction] using h

/-- Consecutive rate-limited dispatch instants are spaced by at least
`min_dispatch_interval`: the first and last dispatch of a batch are at
least `(N-1) * interval` apart. -/
theorem dispatchTimes_spread (interval : Nat) :
    ∀ (nows : List Nat) (last tF tL : Nat),
      (dispatchTimes interval last nows).head? = some tF →
      (dispatchTimes interval last nows).getLast? = some tL →
      tF + (nows.length - 1) * interval ≤ tL := by
  intro nows
  induction nows with
  | nil => intro last tF tL hF hL; simp [dispatchTimes] at hF
  | cons now rest ih =>
      intro last tF tL hF hL
      rw [dispatchTimes] at hF hL
      have htF : tF = RateLimiter.acquire ⟨interval, last⟩ now := by
        simpa using hF.symm
      subst htF
      cases rest with
      | nil =>
          have : tL = RateLimiter.acquire ⟨interval, last⟩ now := by
            simpa [dispatchTimes] using hL.symm
          subst this
          simp
      | cons now2 rest2 =>
          rw [dispatchTimes] at hL
          rw [List.getLast?_cons_cons] at hL
          have hstep := ih (RateLimiter.acquire ⟨interval, last⟩ now)
            (RateLimiter.acquire
              ⟨interval, RateLimiter.acquire ⟨interval, last⟩ now⟩ now2) tL
            (by rw [dispatchTimes]; rfl) (by rw [dispatchTimes]; exact hL)
          have hgap : RateLimiter.acquire ⟨interval, last⟩ now + interval ≤
              RateLimiter.acquire
                ⟨interval, RateLimiter.acquire ⟨interval, last⟩ now⟩ now2 :=
            le_max_right _ _
          simp only [List.length_cons] at hstep ⊢
          calc RateLimiter.acquire ⟨interval, last⟩ now +
                (rest2.length + 1 + 1 - 1) * interval
              = (RateLimiter.acquire ⟨interval, last⟩ now + interval) +
                (rest2.length + 1 - 1) * interval := by
                  simp only [Nat.add_sub_cancel]
                  ring
            _ ≤ RateLimiter.acquire
                  ⟨interval, RateLimiter.acquire ⟨interval, last⟩ now⟩ now2 +
                (rest2.length + 1 - 1) * interval :=
                  Nat.add_le_add_right hgap _
            _ ≤ tL := hstep

/-- C6: for N ≥ 2 sequential normal dispatches through the rate limiter,
the elapsed time between the first and the last dispatch instant is at
least `(N - 1) * min_dispatch_interval`, because each dispatch first waits
in `acquire` until `now - last_dispatch ≥ min_dispatch_interval`. -/
theorem rate_limited_dispatch_spacing (interval last0 : Nat)
    (nows : List Nat) (tFirst tLast : Nat) (_hN : 2 ≤ nows.length)
    (hF : (dispatchTimes interval last0 nows).head? = some tFirst)
    (hL : (dispatchTimes interval last0 nows).getLast? = some tLast) :
    tFirst + (nows.length - 1) * interval ≤ tLast :=
  dispatchTimes_spread interval nows last0 tFirst tLast hF hL

/-- C6 witness: two back-to-back dispatch requests at time 0 with interval
5 go out at times 5 and 10, which are (2-1)*5 apart. -/
theorem rate_limited_dispatch_spacing_witness :
    (5 : Nat) + (([0, 0] : List Nat).length - 1) * 5 ≤ 10 :=
  rate_limited_dispatch_spacing 5 0 [0, 0] 5 10 (by decide) (by decide)
    (by decide)

end Sparky
